import Mathlib

/-!
Verification of the aggregation-and-geometry engine of the amana-marketing
dashboard (device / weekly / regional / demographic views plus the line-chart
and bubble-map geometry helpers).

JavaScript numbers are modelled as rationals (`ℚ`).  The only places where a
non-finite value can arise in the engine are division call sites, so division
is given an explicit result type `JSVal` with `Infinity`, `-Infinity` and
`NaN` constructors.  JavaScript `Map` objects (and string-keyed record
objects) are modelled as association lists in insertion order, which is the
iteration order a `Map` guarantees.
-/

/-- A JavaScript number as observed at the engine's division and
multiplication call sites: a finite value, one of the two infinities, or
`NaN`. -/
inductive JSVal where
  | finite (q : ℚ)
  | posInf
  | negInf
  | nan
deriving DecidableEq, Repr

/-- JavaScript division `a / b` of two finite numbers: finite when `b ≠ 0`,
otherwise `Infinity`, `-Infinity` or `NaN` according to the sign of `a`. -/
def jsDiv (a b : ℚ) : JSVal :=
  if b ≠ 0 then .finite (a / b)
  else if 0 < a then .posInf
  else if a < 0 then .negInf
  else .nan

/-- JavaScript `v || 0`: the falsy numbers (`0`, `-0`, `NaN`) become `0`;
every other value, including `Infinity`, passes through unchanged. -/
def orZero (v : JSVal) : JSVal :=
  match v with
  | .finite q => if q = 0 then .finite 0 else .finite q
  | .nan => .finite 0
  | v => v

/-- JavaScript multiplication of a possibly non-finite value by a finite
constant. -/
def jsMulC (v : JSVal) (c : ℚ) : JSVal :=
  match v with
  | .finite q => .finite (q * c)
  | .posInf => if 0 < c then .posInf else if c < 0 then .negInf else .nan
  | .negInf => if 0 < c then .negInf else if c < 0 then .posInf else .nan
  | .nan => .nan

/-- JavaScript `q || 1` for a finite number: `0` becomes `1`, everything else
passes through (the `maxValue - minValue || 1` range guard of the line
chart). -/
def orOne (q : ℚ) : ℚ :=
  if q = 0 then 1 else q

section Assoc

variable {β : Type}

/-- `Map.get` / object indexing on an association list. -/
def lookupA (k : String) : List (String × β) → Option β
  | [] => none
  | (x, v) :: m => if x = k then some v else lookupA k m

/-- The keys of an association list in insertion order (`Map.keys`). -/
def keysA (m : List (String × β)) : List String :=
  m.map Prod.fst

/-- The `if (!map.has(k)) map.set(k, zero); map.get(k) += record` pattern
used by every aggregation in the source: update the existing entry in place,
or append a fresh entry at the end (a JavaScript `Map` keeps the position of
an updated key and appends new keys). -/
def upsert (k : String) (f : β → β) (z : β) : List (String × β) → List (String × β)
  | [] => [(k, f z)]
  | (x, v) :: m => if x = k then (x, f v) :: m else (x, v) :: upsert k f z m

theorem lookupA_nil (k : String) : lookupA (β := β) k [] = none := rfl

theorem lookupA_upsert_self (k : String) (f : β → β) (z : β) :
    ∀ m : List (String × β),
      lookupA k (upsert k f z m) = some (f ((lookupA k m).getD z))
  | [] => by simp [upsert, lookupA]
  | (x, v) :: m => by
    by_cases hx : x = k
    · simp [upsert, lookupA, hx]
    · simp [upsert, lookupA, hx, lookupA_upsert_self k f z m]

theorem lookupA_upsert_ne (j k : String) (hjk : j ≠ k) (f : β → β) (z : β) :
    ∀ m : List (String × β), lookupA j (upsert k f z m) = lookupA j m
  | [] => by
    have : ¬(k = j) := fun h => hjk h.symm
    simp [upsert, lookupA, this]
  | (x, v) :: m => by
    by_cases hx : x = k
    · subst hx
      have : ¬(x = j) := fun h => hjk h.symm
      simp [upsert, lookupA, this]
    · simp only [upsert, hx, if_false]
      by_cases hxj : x = j
      · simp [lookupA, hxj]
      · simp [lookupA, hxj, lookupA_upsert_ne j k hjk f z m]

theorem keysA_upsert (k : String) (f : β → β) (z : β) :
    ∀ m : List (String × β),
      keysA (upsert k f z m) = if k ∈ keysA m then keysA m else keysA m ++ [k]
  | [] => by simp [upsert, keysA]
  | (x, v) :: m => by
    by_cases hx : x = k
    · subst hx
      simp [upsert, keysA]
    · have ih := keysA_upsert k f z m
      have hxk : ¬(k = x) := fun h => hx h.symm
      by_cases hk : k ∈ keysA m
      · rw [if_pos hk] at ih
        simp only [upsert, hx, if_false, keysA, List.map_cons]
        rw [if_pos (by simp [keysA] at hk ⊢; exact Or.inr hk)]
        simpa [keysA] using ih
      · rw [if_neg hk] at ih
        simp only [upsert, hx, if_false, keysA, List.map_cons]
        rw [if_neg (by simp [keysA] at hk ⊢; exact ⟨hxk, hk⟩)]
        simpa [keysA] using ih

theorem mem_keysA_upsert (j k : String) (f : β → β) (z : β) (m : List (String × β)) :
    j ∈ keysA (upsert k f z m) ↔ j ∈ keysA m ∨ j = k := by
  rw [keysA_upsert]
  by_cases hk : k ∈ keysA m
  · rw [if_pos hk]
    constructor
    · exact Or.inl
    · rintro (h | h)
      · exact h
      · exact h ▸ hk
  · rw [if_neg hk]
    simp

theorem nodup_keysA_upsert (k : String) (f : β → β) (z : β) (m : List (String × β))
    (h : (keysA m).Nodup) : (keysA (upsert k f z m)).Nodup := by
  rw [keysA_upsert]
  by_cases hk : k ∈ keysA m
  · rwa [if_pos hk]
  · rw [if_neg hk]
    exact h.append (by simp) (by simpa using hk)

theorem lookupA_eq_some_of_mem (k : String) (v : β) :
    ∀ m : List (String × β), (k, v) ∈ m → (keysA m).Nodup → lookupA k m = some v
  | [], h, _ => by simp at h
  | (x, w) :: m, h, hnd => by
    simp only [keysA, List.map_cons, List.nodup_cons] at hnd
    rcases List.mem_cons.mp h with h1 | h1
    · have hx : x = k := (congrArg Prod.fst h1).symm
      have hv : w = v := (congrArg Prod.snd h1).symm
      simp [lookupA, hx, hv]
    · have hx : x ≠ k := by
        intro hx
        subst hx
        exact hnd.1 (by simpa [keysA] using ⟨v, h1⟩)
      simp only [lookupA, hx, if_false]
      exact lookupA_eq_some_of_mem k v m h1 hnd.2

theorem mem_of_lookupA_eq_some (k : String) (v : β) :
    ∀ m : List (String × β), lookupA k m = some v → (k, v) ∈ m
  | [], h => by simp [lookupA] at h
  | (x, w) :: m, h => by
    by_cases hx : x = k
    · subst hx
      have h2 : w = v := by simpa [lookupA] using h
      exact List.mem_cons.mpr (Or.inl (by rw [h2]))
    · simp only [lookupA, hx, if_false] at h
      exact List.mem_cons_of_mem _ (mem_of_lookupA_eq_some k v m h)

theorem lookupA_isSome_iff_mem (k : String) :
    ∀ m : List (String × β), (lookupA k m).isSome ↔ k ∈ keysA m
  | [] => by simp [lookupA, keysA]
  | (x, v) :: m => by
    by_cases hx : x = k
    · simp [lookupA, hx, keysA]
    · have hkx : ¬(k = x) := fun h => hx h.symm
      simp [lookupA, keysA, hx, hkx, lookupA_isSome_iff_mem k m, keysA]

end Assoc

section FoldRecs

variable {β ρ : Type}
variable (key : ρ → String) (add : ρ → β → β) (z : ρ → β)

/-- One aggregation step: fold a breakdown record into the accumulator map. -/
def stepA (m : List (String × β)) (r : ρ) : List (String × β) :=
  upsert (key r) (add r) (z r) m

/-- Fold a whole breakdown list into an accumulator map; each source
aggregation is this fold applied campaign by campaign. -/
def foldRecs (l : List ρ) (m : List (String × β)) : List (String × β) :=
  l.foldl (stepA key add z) m

theorem foldRecs_nil (m : List (String × β)) : foldRecs key add z [] m = m := rfl

theorem foldRecs_cons (r : ρ) (l : List ρ) (m : List (String × β)) :
    foldRecs key add z (r :: l) m = foldRecs key add z l (stepA key add z m r) := rfl

theorem foldRecs_append (l₁ l₂ : List ρ) (m : List (String × β)) :
    foldRecs key add z (l₁ ++ l₂) m = foldRecs key add z l₂ (foldRecs key add z l₁ m) := by
  simp only [foldRecs, List.foldl_append]

/-- Folding the concatenation of all breakdown lists is the same as folding
them campaign by campaign. -/
theorem foldRecs_flatMap {γ : Type} (bd : γ → List ρ) :
    ∀ (cs : List γ) (m : List (String × β)),
      cs.foldl (fun m c => foldRecs key add z (bd c) m) m =
        foldRecs key add z (cs.flatMap bd) m
  | [], m => rfl
  | c :: cs, m => by
    rw [List.foldl_cons, List.flatMap_cons, foldRecs_append]
    exact foldRecs_flatMap bd cs (foldRecs key add z (bd c) m)

/-- Characterisation of an additive numeric field of the aggregation: the
looked-up total is the accumulator's value plus the sum of the field over all
records whose key matches. -/
theorem lookupA_foldRecs (proj : β → ℚ) (f : ρ → ℚ)
    (hadd : ∀ r v, proj (add r v) = proj v + f r)
    (hz : ∀ r, proj (z r) = 0) :
    ∀ (l : List ρ) (m : List (String × β)) (k : String),
      (lookupA k (foldRecs key add z l m)).map proj =
        match lookupA k m with
        | some v => some (proj v + ((l.filter fun r => key r = k).map f).sum)
        | none =>
          if (l.filter fun r => key r = k).isEmpty then none
          else some (((l.filter fun r => key r = k).map f).sum)
  | [], m, k => by
    cases h : lookupA k m <;> simp [foldRecs, List.foldl, h]
  | r :: l, m, k => by
    rw [foldRecs_cons]
    rw [lookupA_foldRecs proj f hadd hz l (stepA key add z m r) k]
    by_cases hk : key r = k
    · have h1 : lookupA k (stepA key add z m r) = some (add r ((lookupA k m).getD (z r))) := by
        rw [stepA, hk]
        exact lookupA_upsert_self k (add r) (z r) m
      rw [h1]
      cases h : lookupA k m with
      | some v =>
        simp only [h, Option.getD_some, List.filter_cons, hk, List.map_cons,
          List.sum_cons, hadd, decide_eq_true_eq, if_pos trivial, if_true]
        simp [hadd, add_assoc]
      | none =>
        simp only [h, Option.getD_none, List.filter_cons, hk, List.map_cons,
          List.sum_cons, hadd, hz, decide_eq_true_eq, if_pos trivial, if_true]
        simp [hadd, hz]
    · have h1 : lookupA k (stepA key add z m r) = lookupA k m :=
        lookupA_upsert_ne k (key r) (fun h => hk h.symm) (add r) (z r) m
      rw [h1]
      simp only [List.filter_cons, hk, decide_eq_true_eq, if_neg hk, if_false]

/-- Characterisation of a descriptive (first-write-wins) field of the
aggregation: the looked-up value carries the field of the first matching
record, and later records never overwrite it. -/
theorem lookupA_foldRecs_first {σ : Type} (proj : β → σ) (g : ρ → σ)
    (hadd : ∀ r v, proj (add r v) = proj v)
    (hz : ∀ r, proj (z r) = g r) :
    ∀ (l : List ρ) (m : List (String × β)) (k : String),
      (lookupA k (foldRecs key add z l m)).map proj =
        match lookupA k m with
        | some v => some (proj v)
        | none => ((l.filter fun r => key r = k).head?).map g
  | [], m, k => by
    cases h : lookupA k m <;> simp [foldRecs, List.foldl, h]
  | r :: l, m, k => by
    rw [foldRecs_cons]
    rw [lookupA_foldRecs_first proj g hadd hz l (stepA key add z m r) k]
    by_cases hk : key r = k
    · have h1 : lookupA k (stepA key add z m r) = some (add r ((lookupA k m).getD (z r))) := by
        rw [stepA, hk]
        exact lookupA_upsert_self k (add r) (z r) m
      rw [h1]
      cases h : lookupA k m with
      | some v => simp [h, hadd]
      | none =>
        simp only [h, Option.getD_none, List.filter_cons, hk, decide_eq_true_eq,
          if_pos trivial, if_true]
        simp [hadd, hz]
    · have h1 : lookupA k (stepA key add z m r) = lookupA k m :=
        lookupA_upsert_ne k (key r) (fun h => hk h.symm) (add r) (z r) m
      rw [h1]
      simp only [List.filter_cons, hk, decide_eq_true_eq, if_neg hk, if_false]

theorem mem_keysA_foldRecs :
    ∀ (l : List ρ) (m : List (String × β)) (k : String),
      k ∈ keysA (foldRecs key add z l m) ↔ k ∈ keysA m ∨ k ∈ l.map key
  | [], m, k => by simp [foldRecs, List.foldl]
  | r :: l, m, k => by
    rw [foldRecs_cons, mem_keysA_foldRecs l (stepA key add z m r) k]
    rw [stepA]
    rw [mem_keysA_upsert k (key r) (add r) (z r) m]
    simp only [List.map_cons, List.mem_cons]
    tauto

theorem nodup_keysA_foldRecs :
    ∀ (l : List ρ) (m : List (String × β)),
      (keysA m).Nodup → (keysA (foldRecs key add z l m)).Nodup
  | [], _, h => h
  | r :: l, m, h => by
    rw [foldRecs_cons]
    exact nodup_keysA_foldRecs l (stepA key add z m r)
      (nodup_keysA_upsert (key r) (add r) (z r) m h)

/-- A row `(k, t)` of an aggregation built from the empty map carries, in an
additive field, exactly the sum of that field over the matching records. -/
theorem proj_eq_sum_of_mem (proj : β → ℚ) (f : ρ → ℚ)
    (hadd : ∀ r v, proj (add r v) = proj v + f r)
    (hz : ∀ r, proj (z r) = 0)
    {l : List ρ} {k : String} {t : β}
    (hmem : (k, t) ∈ foldRecs key add z l []) :
    proj t = ((l.filter fun r => key r = k).map f).sum := by
  have hnd := nodup_keysA_foldRecs key add z l [] (by simp [keysA])
  have hlk := lookupA_eq_some_of_mem k t _ hmem hnd
  have h := lookupA_foldRecs key add z proj f hadd hz l [] k
  rw [hlk] at h
  simp only [lookupA_nil] at h
  by_cases hemp : (l.filter fun r => key r = k).isEmpty
  · rw [if_pos hemp] at h
    cases h
  · rw [if_neg hemp] at h
    simpa using h

/-- A row `(k, t)` of an aggregation built from the empty map carries, in a
first-write-wins descriptive field, the value of the first matching
record. -/
theorem proj_first_of_mem {σ : Type} (proj : β → σ) (g : ρ → σ)
    (hadd : ∀ r v, proj (add r v) = proj v)
    (hz : ∀ r, proj (z r) = g r)
    {l : List ρ} {k : String} {t : β}
    (hmem : (k, t) ∈ foldRecs key add z l []) :
    ((l.filter fun r => key r = k).head?).map g = some (proj t) := by
  have hnd := nodup_keysA_foldRecs key add z l [] (by simp [keysA])
  have hlk := lookupA_eq_some_of_mem k t _ hmem hnd
  have h := lookupA_foldRecs_first key add z proj g hadd hz l [] k
  rw [hlk] at h
  simp only [lookupA_nil] at h
  exact h.symm

end FoldRecs

/-! ## Device view (src/app/device-view/page.tsx)

The `DeviceData` interface and the `aggregatedDeviceData` roll-up
(lines 11-21 and 55-97 of the page). -/

/-- One record of a campaign's `device_performance` breakdown list. -/
structure DeviceData where
  device : String
  impressions : ℚ
  clicks : ℚ
  conversions : ℚ
  spend : ℚ
  revenue : ℚ
  ctr : ℚ
  conversion_rate : ℚ
  percentage_of_traffic : ℚ
deriving DecidableEq

/-- A campaign as the device view reads it.  `device_performance` is
`Option`-valued because the page guards `if (!campaign.device_performance)
return;`. -/
structure CampaignDev where
  campaign_name : String
  device_performance : Option (List DeviceData)
  spend : ℚ
  revenue : ℚ
deriving DecidableEq

/-- The per-device accumulator bucket of `aggregatedDeviceData`. -/
structure DevTotals where
  impressions : ℚ
  clicks : ℚ
  conversions : ℚ
  spend : ℚ
  revenue : ℚ
  traffic : ℚ
deriving DecidableEq

/-- The zero bucket created when a device key is first seen. -/
def devZero : DevTotals :=
  ⟨0, 0, 0, 0, 0, 0⟩

/-- `existing.impressions += device.impressions; ...` for one record. -/
def devAdd (d : DeviceData) (t : DevTotals) : DevTotals :=
  { impressions := t.impressions + d.impressions
    clicks := t.clicks + d.clicks
    conversions := t.conversions + d.conversions
    spend := t.spend + d.spend
    revenue := t.revenue + d.revenue
    traffic := t.traffic + d.percentage_of_traffic }

/-- `aggregatedDeviceData` (device view, lines 55-97): fold every campaign's
`device_performance` list into a map keyed by device name, skipping campaigns
whose list is absent, and return the entries in insertion order. -/
def aggregatedDeviceData (campaigns : List CampaignDev) : List (String × DevTotals) :=
  campaigns.foldl
    (fun m c =>
      (c.device_performance.getD []).foldl (fun m d => upsert d.device (devAdd d) devZero m) m)
    []

/-- All device records of all campaigns, in traversal order. -/
def deviceFlat (campaigns : List CampaignDev) : List DeviceData :=
  campaigns.flatMap fun c => c.device_performance.getD []

/-- The device records matching one group key. -/
def deviceRecords (campaigns : List CampaignDev) (k : String) : List DeviceData :=
  (deviceFlat campaigns).filter fun d => d.device = k

theorem aggregatedDeviceData_eq (campaigns : List CampaignDev) :
    aggregatedDeviceData campaigns =
      foldRecs (fun d => d.device) devAdd (fun _ => devZero) (deviceFlat campaigns) [] :=
  (foldRecs_flatMap (fun d : DeviceData => d.device) devAdd (fun _ => devZero)
    (fun c : CampaignDev => c.device_performance.getD []) campaigns [])

/-! ## Region view (the region page of the repository)

The `RegionalData` interface, `cityCoordinates` reference table,
`aggregatedRegionalData`, the bubble-map inputs and the table ROAS. -/

/-- One record of a campaign's `regional_performance` breakdown list. -/
structure RegionalData where
  region : String
  country : String
  impressions : ℚ
  clicks : ℚ
  conversions : ℚ
  spend : ℚ
  revenue : ℚ
  ctr : ℚ
  conversion_rate : ℚ
  cpc : ℚ
  cpa : ℚ
  roas : ℚ
deriving DecidableEq

/-- A campaign as the region view reads it. -/
structure CampaignReg where
  campaign_id : String
  campaign_name : String
  regional_performance : Option (List RegionalData)
deriving DecidableEq

/-- The per-region accumulator bucket of `aggregatedRegionalData`; `country`
is set once when the bucket is created. -/
structure RegTotals where
  spend : ℚ
  revenue : ℚ
  impressions : ℚ
  clicks : ℚ
  conversions : ℚ
  country : String
deriving DecidableEq

/-- The bucket created when a region key is first seen: zero totals plus the
creating record's `country`. -/
def regZero (r : RegionalData) : RegTotals :=
  ⟨0, 0, 0, 0, 0, r.country⟩

/-- `existing.spend += region.spend; ...` for one record; `country` is left
untouched. -/
def regAdd (r : RegionalData) (t : RegTotals) : RegTotals :=
  { t with
    spend := t.spend + r.spend
    revenue := t.revenue + r.revenue
    impressions := t.impressions + r.impressions
    clicks := t.clicks + r.clicks
    conversions := t.conversions + r.conversions }

/-- `aggregatedRegionalData` (region view, lines 80-121): fold every
campaign's `regional_performance` list into a map keyed by region name,
skipping campaigns whose list is absent, and return the entries in insertion
order. -/
def aggregatedRegionalData (campaigns : List CampaignReg) : List (String × RegTotals) :=
  campaigns.foldl
    (fun m c =>
      (c.regional_performance.getD []).foldl (fun m r => upsert r.region (regAdd r) (regZero r) m) m)
    []

/-- All regional records of all campaigns, in traversal order. -/
def regionFlat (campaigns : List CampaignReg) : List RegionalData :=
  campaigns.flatMap fun c => c.regional_performance.getD []

/-- The regional records matching one group key. -/
def regionRecords (campaigns : List CampaignReg) (k : String) : List RegionalData :=
  (regionFlat campaigns).filter fun r => r.region = k

theorem aggregatedRegionalData_eq (campaigns : List CampaignReg) :
    aggregatedRegionalData campaigns =
      foldRecs (fun r => r.region) regAdd regZero (regionFlat campaigns) [] :=
  (foldRecs_flatMap (fun r : RegionalData => r.region) regAdd regZero
    (fun c : CampaignReg => c.regional_performance.getD []) campaigns [])

/-! ## Weekly view (the weekly page of the repository) -/

/-- One record of a campaign's `weekly_performance` breakdown list. -/
structure WeeklyData where
  week_start : String
  week_end : String
  impressions : ℚ
  clicks : ℚ
  conversions : ℚ
  spend : ℚ
  revenue : ℚ
deriving DecidableEq

/-- A campaign as the weekly view reads it. -/
structure CampaignWeek where
  campaign_id : String
  campaign_name : String
  weekly_performance : Option (List WeeklyData)
deriving DecidableEq

/-- The per-week accumulator bucket of `aggregatedWeeklyData`; `weekStart`
and `weekEnd` are set once when the bucket is created. -/
structure WeekTotals where
  spend : ℚ
  revenue : ℚ
  impressions : ℚ
  clicks : ℚ
  conversions : ℚ
  weekStart : String
  weekEnd : String
deriving DecidableEq

/-- The bucket created when a week key is first seen. -/
def weekZero (w : WeeklyData) : WeekTotals :=
  ⟨0, 0, 0, 0, 0, w.week_start, w.week_end⟩

/-- `existing.spend += week.spend; ...` for one record; the date fields are
left untouched. -/
def weekAdd (w : WeeklyData) (t : WeekTotals) : WeekTotals :=
  { t with
    spend := t.spend + w.spend
    revenue := t.revenue + w.revenue
    impressions := t.impressions + w.impressions
    clicks := t.clicks + w.clicks
    conversions := t.conversions + w.conversions }

/-- The grouping step of `aggregatedWeeklyData`, before the final sort. -/
def weeklyMap (campaigns : List CampaignWeek) : List (String × WeekTotals) :=
  campaigns.foldl
    (fun m c =>
      (c.weekly_performance.getD []).foldl
        (fun m w => upsert w.week_start (weekAdd w) (weekZero w) m) m)
    []

/-- `new Date(s).getTime()` for the ISO `"YYYY-MM-DD"` strings this dataset
uses, modelled up to its ordering: concatenating the digits of such a string
yields `YYYYMMDD`, which is ordered exactly as the timestamps are.  Only the
order of this value is ever consumed (by the sort comparator). -/
def dateVal (s : String) : ℕ :=
  s.foldl (fun n ch => if ch.isDigit then n * 10 + (ch.toNat - 48) else n) 0

/-- The ascending comparator `(a, b) => new Date(a.weekStart).getTime() -
new Date(b.weekStart).getTime()`. -/
def weekLE (a b : WeekTotals) : Prop :=
  dateVal a.weekStart ≤ dateVal b.weekStart

instance : DecidableRel weekLE := fun a b =>
  inferInstanceAs (Decidable (dateVal a.weekStart ≤ dateVal b.weekStart))

/-- `aggregatedWeeklyData` (weekly view): group, take the map's values and
sort them chronologically ascending by week start (a stable sort, as
JavaScript's `Array.prototype.sort` is). -/
def aggregatedWeeklyData (campaigns : List CampaignWeek) : List WeekTotals :=
  List.insertionSort weekLE ((weeklyMap campaigns).map Prod.snd)

/-- All weekly records of all campaigns, in traversal order. -/
def weekFlat (campaigns : List CampaignWeek) : List WeeklyData :=
  campaigns.flatMap fun c => c.weekly_performance.getD []

/-- The weekly records matching one group key. -/
def weekRecords (campaigns : List CampaignWeek) (k : String) : List WeeklyData :=
  (weekFlat campaigns).filter fun w => w.week_start = k

theorem weeklyMap_eq (campaigns : List CampaignWeek) :
    weeklyMap campaigns =
      foldRecs (fun w => w.week_start) weekAdd weekZero (weekFlat campaigns) [] :=
  (foldRecs_flatMap (fun w : WeeklyData => w.week_start) weekAdd weekZero
    (fun c : CampaignWeek => c.weekly_performance.getD []) campaigns [])

/-! ## Demographic view (src/app/demographic-view/page.tsx)

`calculateMetrics` (lines 56-89) folds every campaign's
`demographic_breakdown` into two fixed gender buckets and an age-group keyed
object.  Unlike the three sibling aggregations, it has no
`if (!campaign.demographic_breakdown) return;` guard, so a campaign whose
breakdown list is absent makes `undefined.forEach` throw a `TypeError`; the
model returns `Except.error ()` in that case. -/

/-- The nested `performance` object of a demographic record. -/
structure DemPerformance where
  impressions : ℚ
  clicks : ℚ
  conversions : ℚ
  ctr : ℚ
  conversion_rate : ℚ
deriving DecidableEq

/-- One record of a campaign's `demographic_breakdown` list. -/
structure DemographicData where
  age_group : String
  gender : String
  percentage_of_audience : ℚ
  performance : DemPerformance
deriving DecidableEq

/-- A campaign as the demographic view reads it. -/
structure CampaignDemo where
  id : ℚ
  name : String
  demographic_breakdown : Option (List DemographicData)
  spend : ℚ
  revenue : ℚ
deriving DecidableEq

/-- One of the two fixed gender buckets (`maleData` / `femaleData`). -/
structure GenderTotals where
  clicks : ℚ
  spend : ℚ
  revenue : ℚ
deriving DecidableEq

/-- One bucket of the `ageGroupData` object. -/
structure AgeTotals where
  spend : ℚ
  revenue : ℚ
deriving DecidableEq

/-- The value `calculateMetrics` returns on success. -/
structure Metrics where
  maleData : GenderTotals
  femaleData : GenderTotals
  ageGroupData : List (String × AgeTotals)
deriving DecidableEq

/-- The initial accumulators of `calculateMetrics`. -/
def initMetrics : Metrics :=
  ⟨⟨0, 0, 0⟩, ⟨0, 0, 0⟩, []⟩

/-- The body of the inner `forEach`: ratio-split the campaign's spend and
revenue by the record's `percentage_of_audience`, add into the matching
gender bucket (records whose gender is neither `"Male"` nor `"Female"`
update no gender bucket), then add into the record's age-group bucket. -/
def demoStep (c : CampaignDemo) (acc : Metrics) (demo : DemographicData) : Metrics :=
  let ratio := demo.percentage_of_audience / 100
  let clicks := demo.performance.clicks
  let spend := c.spend * ratio
  let revenue := c.revenue * ratio
  let acc1 :=
    if demo.gender = "Male" then
      { acc with maleData :=
          ⟨acc.maleData.clicks + clicks, acc.maleData.spend + spend,
            acc.maleData.revenue + revenue⟩ }
    else if demo.gender = "Female" then
      { acc with femaleData :=
          ⟨acc.femaleData.clicks + clicks, acc.femaleData.spend + spend,
            acc.femaleData.revenue + revenue⟩ }
    else acc
  let addAge := fun t : AgeTotals => (⟨t.spend + spend, t.revenue + revenue⟩ : AgeTotals)
  { acc1 with ageGroupData := upsert demo.age_group addAge ⟨0, 0⟩ acc1.ageGroupData }

/-- `calculateMetrics` (demographic view, lines 56-89).  The `forEach` over
`campaign.demographic_breakdown` is unguarded, so an absent list throws. -/
def calculateMetrics (campaigns : List CampaignDemo) : Except Unit Metrics :=
  campaigns.foldlM
    (fun acc c =>
      match c.demographic_breakdown with
      | none => .error ()
      | some l => .ok (l.foldl (demoStep c) acc))
    initMetrics

/-- The value `calculateMetrics` computes when no campaign's breakdown list
is absent. -/
def pureMetrics (campaigns : List CampaignDemo) : Metrics :=
  campaigns.foldl
    (fun acc c => (c.demographic_breakdown.getD []).foldl (demoStep c) acc)
    initMetrics

/-- `calculateMetrics` succeeds exactly when every campaign carries a
breakdown list, and then computes `pureMetrics`. -/
theorem calculateMetrics_eq (campaigns : List CampaignDemo) :
    calculateMetrics campaigns =
      if campaigns.all (fun c => c.demographic_breakdown.isSome) then
        .ok (pureMetrics campaigns)
      else .error () := by
  suffices h : ∀ (cs : List CampaignDemo) (acc : Metrics),
      cs.foldlM
        (fun acc c =>
          match c.demographic_breakdown with
          | none => Except.error ()
          | some l => Except.ok (l.foldl (demoStep c) acc))
        acc =
      if cs.all (fun c => c.demographic_breakdown.isSome) then
        Except.ok (cs.foldl (fun acc c => (c.demographic_breakdown.getD []).foldl (demoStep c) acc) acc)
      else Except.error () by
    exact h campaigns initMetrics
  intro cs
  induction cs with
  | nil =>
    intro acc
    rfl
  | cons c cs ih =>
    intro acc
    rw [List.foldlM_cons]
    cases hbd : c.demographic_breakdown with
    | none =>
      simp only [hbd, List.all_cons, Option.isSome_none, Bool.false_and, if_neg]
      rfl
    | some l =>
      show List.foldlM _ (l.foldl (demoStep c) acc) cs = _
      rw [ih]
      simp [hbd, List.all_cons]

/-- The age-bucket update contributed by one record of one campaign. -/
def ageAddOf (c : CampaignDemo) (d : DemographicData) (t : AgeTotals) : AgeTotals :=
  ⟨t.spend + c.spend * (d.percentage_of_audience / 100),
   t.revenue + c.revenue * (d.percentage_of_audience / 100)⟩

/-- All demographic records of all campaigns, each paired with its campaign
(the ratio split reads campaign-level spend and revenue). -/
def demoPairsFlat (cs : List CampaignDemo) : List (CampaignDemo × DemographicData) :=
  cs.flatMap fun c => (c.demographic_breakdown.getD []).map fun d => (c, d)

/-- The `(age_group, gender)` pairs present across all campaigns' breakdown
lists, in traversal order. -/
def demoPairs (cs : List CampaignDemo) : List (String × String) :=
  (cs.flatMap fun c => c.demographic_breakdown.getD []).map fun d => (d.age_group, d.gender)

theorem demoStep_age (c : CampaignDemo) (acc : Metrics) (d : DemographicData) :
    (demoStep c acc d).ageGroupData =
      upsert d.age_group (ageAddOf c d) ⟨0, 0⟩ acc.ageGroupData := by
  unfold demoStep ageAddOf
  by_cases h1 : d.gender = "Male" <;> by_cases h2 : d.gender = "Female" <;> simp [h1, h2]

theorem demoStep_male (c : CampaignDemo) (acc : Metrics) (d : DemographicData) :
    (demoStep c acc d).maleData =
      if d.gender = "Male" then
        ⟨acc.maleData.clicks + d.performance.clicks,
         acc.maleData.spend + c.spend * (d.percentage_of_audience / 100),
         acc.maleData.revenue + c.revenue * (d.percentage_of_audience / 100)⟩
      else acc.maleData := by
  unfold demoStep
  by_cases h1 : d.gender = "Male" <;> by_cases h2 : d.gender = "Female" <;> simp [h1, h2]

theorem demoStep_female (c : CampaignDemo) (acc : Metrics) (d : DemographicData) :
    (demoStep c acc d).femaleData =
      if d.gender = "Female" then
        ⟨acc.femaleData.clicks + d.performance.clicks,
         acc.femaleData.spend + c.spend * (d.percentage_of_audience / 100),
         acc.femaleData.revenue + c.revenue * (d.percentage_of_audience / 100)⟩
      else acc.femaleData := by
  unfold demoStep
  by_cases h1 : d.gender = "Male" <;> by_cases h2 : d.gender = "Female" <;> simp [h1, h2]

theorem foldl_demoStep_age (c : CampaignDemo) :
    ∀ (l : List DemographicData) (acc : Metrics),
      (l.foldl (demoStep c) acc).ageGroupData =
        l.foldl (fun m d => upsert d.age_group (ageAddOf c d) ⟨0, 0⟩ m) acc.ageGroupData
  | [], _ => rfl
  | d :: l, acc => by
    rw [List.foldl_cons, List.foldl_cons, foldl_demoStep_age c l (demoStep c acc d),
      demoStep_age]

theorem foldl_demoStep_male (c : CampaignDemo) :
    ∀ (l : List DemographicData) (acc : Metrics),
      (l.foldl (demoStep c) acc).maleData =
        ⟨acc.maleData.clicks +
            ((l.filter fun d => d.gender = "Male").map fun d => d.performance.clicks).sum,
         acc.maleData.spend +
            ((l.filter fun d => d.gender = "Male").map fun d =>
              c.spend * (d.percentage_of_audience / 100)).sum,
         acc.maleData.revenue +
            ((l.filter fun d => d.gender = "Male").map fun d =>
              c.revenue * (d.percentage_of_audience / 100)).sum⟩
  | [], acc => by simp
  | d :: l, acc => by
    rw [List.foldl_cons, foldl_demoStep_male c l (demoStep c acc d), demoStep_male]
    by_cases h : d.gender = "Male"
    · simp only [h, if_pos trivial, if_true, List.filter_cons, decide_eq_true_eq,
        List.map_cons, List.sum_cons]
      simp only [GenderTotals.mk.injEq]
      exact ⟨by ring, by ring, by ring⟩
    · simp only [List.filter_cons, h, decide_eq_true_eq, if_neg h, if_false]

theorem foldl_demoStep_female (c : CampaignDemo) :
    ∀ (l : List DemographicData) (acc : Metrics),
      (l.foldl (demoStep c) acc).femaleData =
        ⟨acc.femaleData.clicks +
            ((l.filter fun d => d.gender = "Female").map fun d => d.performance.clicks).sum,
         acc.femaleData.spend +
            ((l.filter fun d => d.gender = "Female").map fun d =>
              c.spend * (d.percentage_of_audience / 100)).sum,
         acc.femaleData.revenue +
            ((l.filter fun d => d.gender = "Female").map fun d =>
              c.revenue * (d.percentage_of_audience / 100)).sum⟩
  | [], acc => by simp
  | d :: l, acc => by
    rw [List.foldl_cons, foldl_demoStep_female c l (demoStep c acc d), demoStep_female]
    by_cases h : d.gender = "Female"
    · simp only [h, if_pos trivial, if_true, List.filter_cons, decide_eq_true_eq,
        List.map_cons, List.sum_cons]
      simp only [GenderTotals.mk.injEq]
      exact ⟨by ring, by ring, by ring⟩
    · simp only [List.filter_cons, h, decide_eq_true_eq, if_neg h, if_false]

theorem pureMetrics_age (cs : List CampaignDemo) :
    (pureMetrics cs).ageGroupData =
      foldRecs (fun p => p.2.age_group) (fun p => ageAddOf p.1 p.2) (fun _ => ⟨0, 0⟩)
        (demoPairsFlat cs) [] := by
  suffices h : ∀ (cs : List CampaignDemo) (acc : Metrics),
      ((cs.foldl (fun acc c => (c.demographic_breakdown.getD []).foldl (demoStep c) acc) acc)).ageGroupData =
        foldRecs (fun p => p.2.age_group) (fun p => ageAddOf p.1 p.2) (fun _ => ⟨0, 0⟩)
          (demoPairsFlat cs) acc.ageGroupData by
    exact h cs initMetrics
  intro cs
  induction cs with
  | nil =>
    intro acc
    rfl
  | cons c cs ih =>
    intro acc
    have hinner :
        foldRecs (fun p => p.2.age_group) (fun p => ageAddOf p.1 p.2) (fun _ => ⟨0, 0⟩)
            ((c.demographic_breakdown.getD []).map fun d => (c, d)) acc.ageGroupData =
          (c.demographic_breakdown.getD []).foldl
            (fun m d => upsert d.age_group (ageAddOf c d) ⟨0, 0⟩ m) acc.ageGroupData := by
      rw [foldRecs, List.foldl_map]
      rfl
    rw [List.foldl_cons, ih]
    simp only [demoPairsFlat, List.flatMap_cons]
    rw [foldRecs_append, hinner, foldl_demoStep_age]

theorem pureMetrics_male (cs : List CampaignDemo) :
    (pureMetrics cs).maleData =
      ⟨(cs.map fun c =>
          (((c.demographic_breakdown.getD []).filter fun d => d.gender = "Male").map
            fun d => d.performance.clicks).sum).sum,
       (cs.map fun c =>
          (((c.demographic_breakdown.getD []).filter fun d => d.gender = "Male").map
            fun d => c.spend * (d.percentage_of_audience / 100)).sum).sum,
       (cs.map fun c =>
          (((c.demographic_breakdown.getD []).filter fun d => d.gender = "Male").map
            fun d => c.revenue * (d.percentage_of_audience / 100)).sum).sum⟩ := by
  suffices h : ∀ (cs : List CampaignDemo) (acc : Metrics),
      ((cs.foldl (fun acc c => (c.demographic_breakdown.getD []).foldl (demoStep c) acc) acc)).maleData =
        ⟨acc.maleData.clicks +
            (cs.map fun c =>
              (((c.demographic_breakdown.getD []).filter fun d => d.gender = "Male").map
                fun d => d.performance.clicks).sum).sum,
         acc.maleData.spend +
            (cs.map fun c =>
              (((c.demographic_breakdown.getD []).filter fun d => d.gender = "Male").map
                fun d => c.spend * (d.percentage_of_audience / 100)).sum).sum,
         acc.maleData.revenue +
            (cs.map fun c =>
              (((c.demographic_breakdown.getD []).filter fun d => d.gender = "Male").map
                fun d => c.revenue * (d.percentage_of_audience / 100)).sum).sum⟩ by
    rw [pureMetrics, h cs initMetrics]
    simp [initMetrics]
  intro cs
  induction cs with
  | nil =>
    intro acc
    simp
  | cons c cs ih =>
    intro acc
    rw [List.foldl_cons, ih, foldl_demoStep_male]
    simp only [List.map_cons, List.sum_cons, GenderTotals.mk.injEq]
    exact ⟨by ring, by ring, by ring⟩

theorem pureMetrics_female (cs : List CampaignDemo) :
    (pureMetrics cs).femaleData =
      ⟨(cs.map fun c =>
          (((c.demographic_breakdown.getD []).filter fun d => d.gender = "Female").map
            fun d => d.performance.clicks).sum).sum,
       (cs.map fun c =>
          (((c.demographic_breakdown.getD []).filter fun d => d.gender = "Female").map
            fun d => c.spend * (d.percentage_of_audience / 100)).sum).sum,
       (cs.map fun c =>
          (((c.demographic_breakdown.getD []).filter fun d => d.gender = "Female").map
            fun d => c.revenue * (d.percentage_of_audience / 100)).sum).sum⟩ := by
  suffices h : ∀ (cs : List CampaignDemo) (acc : Metrics),
      ((cs.foldl (fun acc c => (c.demographic_breakdown.getD []).foldl (demoStep c) acc) acc)).femaleData =
        ⟨acc.femaleData.clicks +
            (cs.map fun c =>
              (((c.demographic_breakdown.getD []).filter fun d => d.gender = "Female").map
                fun d => d.performance.clicks).sum).sum,
         acc.femaleData.spend +
            (cs.map fun c =>
              (((c.demographic_breakdown.getD []).filter fun d => d.gender = "Female").map
                fun d => c.spend * (d.percentage_of_audience / 100)).sum).sum,
         acc.femaleData.revenue +
            (cs.map fun c =>
              (((c.demographic_breakdown.getD []).filter fun d => d.gender = "Female").map
                fun d => c.revenue * (d.percentage_of_audience / 100)).sum).sum⟩ by
    rw [pureMetrics, h cs initMetrics]
    simp [initMetrics]
  intro cs
  induction cs with
  | nil =>
    intro acc
    simp
  | cons c cs ih =>
    intro acc
    rw [List.foldl_cons, ih, foldl_demoStep_female]
    simp only [List.map_cons, List.sum_cons, GenderTotals.mk.injEq]
    exact ⟨by ring, by ring, by ring⟩

/-! ## Region-view presentation: reference city table, bubble inputs, ROAS -/

/-- One entry of the `cityCoordinates` reference table: longitude `x`,
latitude `y`, country. -/
structure CityCoord where
  x : ℚ
  y : ℚ
  country : String
deriving DecidableEq

/-- The hardcoded `cityCoordinates` table of the region view (lines 37-58),
in object-literal order (string keys enumerate in insertion order). -/
def cityCoordinates : List (String × CityCoord) :=
  [("Dubai", ⟨55.2708, 25.2048, "UAE"⟩),
   ("Abu Dhabi", ⟨54.3773, 24.4539, "UAE"⟩),
   ("Riyadh", ⟨46.6753, 24.7136, "Saudi Arabia"⟩),
   ("Jeddah", ⟨39.1925, 21.5433, "Saudi Arabia"⟩),
   ("Cairo", ⟨31.2357, 30.0444, "Egypt"⟩),
   ("Doha", ⟨51.5310, 25.2854, "Qatar"⟩),
   ("Kuwait", ⟨47.9774, 29.3759, "Kuwait"⟩),
   ("Manama", ⟨50.5577, 26.0667, "Bahrain"⟩),
   ("Muscat", ⟨58.4059, 23.5880, "Oman"⟩),
   ("Amman", ⟨35.9450, 31.9539, "Jordan"⟩),
   ("Beirut", ⟨35.5018, 33.8886, "Lebanon"⟩),
   ("Casablanca", ⟨-7.5898, 33.5731, "Morocco"⟩),
   ("Tunis", ⟨10.1815, 36.8065, "Tunisia"⟩),
   ("Algiers", ⟨3.0588, 36.7538, "Algeria"⟩),
   ("Paris", ⟨2.3522, 48.8566, "France"⟩),
   ("London", ⟨-0.1276, 51.5074, "United Kingdom"⟩),
   ("Madrid", ⟨-3.7038, 40.4168, "Spain"⟩),
   ("Rome", ⟨12.4964, 41.9028, "Italy"⟩),
   ("Berlin", ⟨13.4050, 52.5200, "Germany"⟩),
   ("Istanbul", ⟨28.9784, 41.0082, "Turkey"⟩)]

/-- One point handed to the `BubbleMap` component. -/
structure BubbleDataPoint where
  city : String
  country : String
  value : ℚ
  secondaryValue : ℚ
  x : ℚ
  y : ℚ
deriving DecidableEq

/-- `bubbleMapDataRevenue` (region view, lines 129-139): one point per entry
of `cityCoordinates`; `value` is `regionData?.revenue || 1000` — the
aggregated row's revenue for a city with a matching row and a truthy
revenue, and the sentinel `1000` both for a city without a row and for a row
whose revenue is `0`; `secondaryValue` is `regionData?.spend || 0`. -/
def bubbleMapDataRevenue (campaigns : List CampaignReg) : List BubbleDataPoint :=
  cityCoordinates.map fun p =>
    ⟨p.1, p.2.country,
     match lookupA p.1 (aggregatedRegionalData campaigns) with
     | some r => if r.revenue = 0 then 1000 else r.revenue
     | none => 1000,
     match lookupA p.1 (aggregatedRegionalData campaigns) with
     | some r => if r.spend = 0 then 0 else r.spend
     | none => 0,
     p.2.x, p.2.y⟩

/-- `bubbleMapDataSpend` (region view, lines 142-152): the same with the two
metrics swapped. -/
def bubbleMapDataSpend (campaigns : List CampaignReg) : List BubbleDataPoint :=
  cityCoordinates.map fun p =>
    ⟨p.1, p.2.country,
     match lookupA p.1 (aggregatedRegionalData campaigns) with
     | some r => if r.spend = 0 then 1000 else r.spend
     | none => 1000,
     match lookupA p.1 (aggregatedRegionalData campaigns) with
     | some r => if r.revenue = 0 then 0 else r.revenue
     | none => 0,
     p.2.x, p.2.y⟩

/-- The `roas` column of the regional table (region view, line 171):
`((region.revenue / region.spend) || 0)`. -/
def regionTableRoas (region : RegTotals) : JSVal :=
  orZero (jsDiv region.revenue region.spend)

/-- The "Avg ROAS" card of the region view (line 237):
`((totalRevenue / totalSpend) || 0)`. -/
def avgROAS (totalRevenue totalSpend : ℚ) : JSVal :=
  orZero (jsDiv totalRevenue totalSpend)

/-! ## Device-view derived ratios -/

/-- `mobileROAS` (device view, line 110): the explicitly guarded ratio
`mobileData.spend > 0 ? mobileData.revenue / mobileData.spend : 0`. -/
def mobileROAS (mobileData : DevTotals) : ℚ :=
  if 0 < mobileData.spend then mobileData.revenue / mobileData.spend else 0

/-- The `roas` field of one row of `mobileCampaigns` (device view,
line 147): the unguarded `mobilePerf.revenue / mobilePerf.spend`, computed
for the campaign's `Mobile` record when there is one. -/
def mobileCampaignRoas (c : CampaignDev) : Option JSVal :=
  ((c.device_performance.getD []).find? fun d => d.device == "Mobile").map
    fun p => jsDiv p.revenue p.spend

/-! ## Line chart (src/src/components/ui/line-chart.tsx) -/

/-- One entry of the `data` prop of `LineChart`. -/
structure LineChartDataPoint where
  label : String
  value : ℚ
deriving DecidableEq

/-- One entry of the `points` array computed by `LineChart` (lines 47-51);
`x` can be `NaN`, so it is a `JSVal`. -/
structure LinePlotPoint where
  x : JSVal
  y : ℚ
  label : String
  value : ℚ
deriving DecidableEq

/-- `Math.max(...l)` over a non-empty list (the component returns early when
`data` is empty, so the empty case is never reached). -/
def listMax : List ℚ → ℚ
  | [] => 0
  | q :: l => l.foldl max q

/-- `Math.min(...l)` over a non-empty list. -/
def listMin : List ℚ → ℚ
  | [] => 0
  | q :: l => l.foldl min q

/-- The `points` array of `LineChart` (lines 40-51): for point `i`,
`x = (i / (data.length - 1)) * 100` and
`y = chartHeight - ((value - minValue) / (maxValue - minValue || 1)) * chartHeight`
with `chartHeight = height - 80`. -/
def linePoints (data : List LineChartDataPoint) (height : ℚ) : List LinePlotPoint :=
  let maxValue := listMax (data.map fun item => item.value)
  let minValue := listMin (data.map fun item => item.value)
  let valueRange := orOne (maxValue - minValue)
  let chartHeight := height - 80
  data.enum.map fun p =>
    ⟨jsMulC (jsDiv (p.1 : ℚ) ((data.length : ℚ) - 1)) 100,
     chartHeight - (p.2.value - minValue) / valueRange * chartHeight,
     p.2.label, p.2.value⟩

/-- The command list behind the `pathD` string (lines 54-59): `M` for the
first point, `L` for the rest, each carrying the point's coordinates. -/
def linePathCmds (pts : List LinePlotPoint) : List (String × JSVal × ℚ) :=
  pts.enum.map fun p => (if p.1 = 0 then "M" else "L", p.2.x, p.2.y)

/-- Whether any coordinate of the path is `NaN`. -/
def pathHasNaN (cmds : List (String × JSVal × ℚ)) : Prop :=
  JSVal.nan ∈ cmds.map fun c => c.2.1

/-! ## Bubble map (src/src/components/ui/bubble-map.tsx) -/

/-- `getBubbleSize` (lines 42-50), closing over the min and max of the
current point set: `35` when all values are equal, otherwise
`10 + (value - minValue) / (maxValue - minValue) * 50`. -/
def getBubbleSize (data : List BubbleDataPoint) (value : ℚ) : ℚ :=
  let maxValue := listMax (data.map fun item => item.value)
  let minValue := listMin (data.map fun item => item.value)
  if maxValue = minValue then 35
  else 10 + (value - minValue) / (maxValue - minValue) * 50

/-- `convertCoordinates` (lines 56-63): the linear equirectangular
projection onto a 1000-wide, `height`-tall view box. -/
def convertCoordinates (height x y : ℚ) : ℚ × ℚ :=
  (((x + 180) / 360) * 1000, ((90 - y) / 180) * height)

/-- The comparator `(a, b) => b.value - a.value` of the city list
(line 193), as the descending-by-value order it induces. -/
def bubbleValueGE (a b : BubbleDataPoint) : Prop :=
  b.value ≤ a.value

instance : DecidableRel bubbleValueGE := fun a b =>
  inferInstanceAs (Decidable (b.value ≤ a.value))

instance : IsTotal BubbleDataPoint bubbleValueGE :=
  ⟨fun a b => le_total b.value a.value⟩

instance : IsTrans BubbleDataPoint bubbleValueGE :=
  ⟨fun _ _ _ h1 h2 => le_trans h2 h1⟩

/-- The state of the caller's `data` array after `BubbleMap` has rendered:
line 193 calls `data.sort((a, b) => b.value - a.value)`, which sorts the
array **in place** (stable, as `Array.prototype.sort` is); the early return
for empty or missing data happens before the sort is reached. -/
def bubbleMapDataAfterRender (data : List BubbleDataPoint) : List BubbleDataPoint :=
  if data.isEmpty then data else List.insertionSort bubbleValueGE data

/-! ## Helper lemmas for list min / max -/

theorem le_foldl_max : ∀ (l : List ℚ) (a : ℚ), a ≤ l.foldl max a
  | [], a => le_refl a
  | b :: l, a => le_trans (le_max_left a b) (le_foldl_max l (max a b))

theorem mem_le_foldl_max : ∀ (l : List ℚ) (a q : ℚ), q ∈ l → q ≤ l.foldl max a
  | [], _, q, h => by simp at h
  | b :: l, a, q, h => by
    rcases List.mem_cons.mp h with h1 | h1
    · subst h1
      exact le_trans (le_max_right a q) (le_foldl_max l (max a q))
    · exact mem_le_foldl_max l (max a b) q h1

theorem foldl_min_le : ∀ (l : List ℚ) (a : ℚ), l.foldl min a ≤ a
  | [], a => le_refl a
  | b :: l, a => le_trans (foldl_min_le l (min a b)) (min_le_left a b)

theorem foldl_min_le_mem : ∀ (l : List ℚ) (a q : ℚ), q ∈ l → l.foldl min a ≤ q
  | [], _, q, h => by simp at h
  | b :: l, a, q, h => by
    rcases List.mem_cons.mp h with h1 | h1
    · subst h1
      exact le_trans (foldl_min_le l (min a q)) (min_le_right a q)
    · exact foldl_min_le_mem l (min a b) q h1

theorem le_listMax {l : List ℚ} {q : ℚ} (h : q ∈ l) : q ≤ listMax l := by
  cases l with
  | nil => simp at h
  | cons a l =>
    rcases List.mem_cons.mp h with h1 | h1
    · subst h1
      exact le_foldl_max l q
    · exact mem_le_foldl_max l a q h1

theorem listMin_le {l : List ℚ} {q : ℚ} (h : q ∈ l) : listMin l ≤ q := by
  cases l with
  | nil => simp at h
  | cons a l =>
    rcases List.mem_cons.mp h with h1 | h1
    · subst h1
      exact foldl_min_le l q
    · exact foldl_min_le_mem l a q h1

/-! ## Claims -/

/-- C1: Sum correctness.  For every list of campaigns and each aggregation
dimension (device, week, region), each output row's impressions, clicks,
conversions, spend and revenue equal the exact sum of the corresponding
fields of all records, across all campaigns, whose dimension value equals
that row's group key; no record is counted twice (each record occurs exactly
once in the flattened, filtered record list being summed). -/
theorem aggregation_sum_correct :
    (∀ (campaigns : List CampaignDev) (k : String) (t : DevTotals),
        (k, t) ∈ aggregatedDeviceData campaigns →
          t.impressions = ((deviceRecords campaigns k).map fun d => d.impressions).sum ∧
          t.clicks = ((deviceRecords campaigns k).map fun d => d.clicks).sum ∧
          t.conversions = ((deviceRecords campaigns k).map fun d => d.conversions).sum ∧
          t.spend = ((deviceRecords campaigns k).map fun d => d.spend).sum ∧
          t.revenue = ((deviceRecords campaigns k).map fun d => d.revenue).sum) ∧
    (∀ (campaigns : List CampaignReg) (k : String) (t : RegTotals),
        (k, t) ∈ aggregatedRegionalData campaigns →
          t.impressions = ((regionRecords campaigns k).map fun r => r.impressions).sum ∧
          t.clicks = ((regionRecords campaigns k).map fun r => r.clicks).sum ∧
          t.conversions = ((regionRecords campaigns k).map fun r => r.conversions).sum ∧
          t.spend = ((regionRecords campaigns k).map fun r => r.spend).sum ∧
          t.revenue = ((regionRecords campaigns k).map fun r => r.revenue).sum) ∧
    (∀ (campaigns : List CampaignWeek) (t : WeekTotals),
        t ∈ aggregatedWeeklyData campaigns →
          t.impressions = ((weekRecords campaigns t.weekStart).map fun w => w.impressions).sum ∧
          t.clicks = ((weekRecords campaigns t.weekStart).map fun w => w.clicks).sum ∧
          t.conversions = ((weekRecords campaigns t.weekStart).map fun w => w.conversions).sum ∧
          t.spend = ((weekRecords campaigns t.weekStart).map fun w => w.spend).sum ∧
          t.revenue = ((weekRecords campaigns t.weekStart).map fun w => w.revenue).sum) := by
  refine ⟨?_, ?_, ?_⟩
  · intro campaigns k t hmem
    rw [aggregatedDeviceData_eq] at hmem
    exact ⟨proj_eq_sum_of_mem _ _ _ (fun t => t.impressions) (fun d => d.impressions)
        (fun _ _ => rfl) (fun _ => rfl) hmem,
      proj_eq_sum_of_mem _ _ _ (fun t => t.clicks) (fun d => d.clicks)
        (fun _ _ => rfl) (fun _ => rfl) hmem,
      proj_eq_sum_of_mem _ _ _ (fun t => t.conversions) (fun d => d.conversions)
        (fun _ _ => rfl) (fun _ => rfl) hmem,
      proj_eq_sum_of_mem _ _ _ (fun t => t.spend) (fun d => d.spend)
        (fun _ _ => rfl) (fun _ => rfl) hmem,
      proj_eq_sum_of_mem _ _ _ (fun t => t.revenue) (fun d => d.revenue)
        (fun _ _ => rfl) (fun _ => rfl) hmem⟩
  · intro campaigns k t hmem
    rw [aggregatedRegionalData_eq] at hmem
    exact ⟨proj_eq_sum_of_mem _ _ _ (fun t => t.impressions) (fun r => r.impressions)
        (fun _ _ => rfl) (fun _ => rfl) hmem,
      proj_eq_sum_of_mem _ _ _ (fun t => t.clicks) (fun r => r.clicks)
        (fun _ _ => rfl) (fun _ => rfl) hmem,
      proj_eq_sum_of_mem _ _ _ (fun t => t.conversions) (fun r => r.conversions)
        (fun _ _ => rfl) (fun _ => rfl) hmem,
      proj_eq_sum_of_mem _ _ _ (fun t => t.spend) (fun r => r.spend)
        (fun _ _ => rfl) (fun _ => rfl) hmem,
      proj_eq_sum_of_mem _ _ _ (fun t => t.revenue) (fun r => r.revenue)
        (fun _ _ => rfl) (fun _ => rfl) hmem⟩
  · intro campaigns t hmem
    have hval : t ∈ (weeklyMap campaigns).map Prod.snd :=
      (List.perm_insertionSort weekLE ((weeklyMap campaigns).map Prod.snd)).mem_iff.mp hmem
    obtain ⟨⟨k, v⟩, hkv, hsnd⟩ := List.mem_map.mp hval
    have hv : v = t := hsnd
    subst hv
    rw [weeklyMap_eq] at hkv
    have hfirst := proj_first_of_mem (fun w : WeeklyData => w.week_start) weekAdd weekZero
      (fun v : WeekTotals => v.weekStart) (fun w : WeeklyData => w.week_start)
      (fun _ _ => rfl) (fun _ => rfl) hkv
    have hk : k = v.weekStart := by
      cases hfil : (weekFlat campaigns).filter (fun r => r.week_start = k) with
      | nil =>
        rw [hfil] at hfirst
        simp at hfirst
      | cons w0 ws =>
        rw [hfil] at hfirst
        simp only [List.head?_cons, Option.map_some] at hfirst
        have hw0 : w0 ∈ (weekFlat campaigns).filter (fun r => r.week_start = k) := by
          rw [hfil]
          exact List.mem_cons_self w0 ws
        have := (List.mem_filter.mp hw0).2
        simp only [decide_eq_true_eq] at this
        rw [← this]
        exact (Option.some.injEq .. ▸ hfirst :)
    subst hk
    exact ⟨proj_eq_sum_of_mem _ _ _ (fun t => t.impressions) (fun w => w.impressions)
        (fun _ _ => rfl) (fun _ => rfl) hkv,
      proj_eq_sum_of_mem _ _ _ (fun t => t.clicks) (fun w => w.clicks)
        (fun _ _ => rfl) (fun _ => rfl) hkv,
      proj_eq_sum_of_mem _ _ _ (fun t => t.conversions) (fun w => w.conversions)
        (fun _ _ => rfl) (fun _ => rfl) hkv,
      proj_eq_sum_of_mem _ _ _ (fun t => t.spend) (fun w => w.spend)
        (fun _ _ => rfl) (fun _ => rfl) hkv,
      proj_eq_sum_of_mem _ _ _ (fun t => t.revenue) (fun w => w.revenue)
        (fun _ _ => rfl) (fun _ => rfl) hkv⟩

/-- A weekly bucket records its own key in `weekStart`. -/
theorem weekStart_of_mem {l : List WeeklyData} {k : String} {v : WeekTotals}
    (hkv : (k, v) ∈ foldRecs (fun w : WeeklyData => w.week_start) weekAdd weekZero l []) :
    v.weekStart = k := by
  have hfirst := proj_first_of_mem (fun w : WeeklyData => w.week_start) weekAdd weekZero
    (fun v : WeekTotals => v.weekStart) (fun w : WeeklyData => w.week_start)
    (fun _ _ => rfl) (fun _ => rfl) hkv
  cases hfil : l.filter (fun r => r.week_start = k) with
  | nil =>
    rw [hfil] at hfirst
    simp at hfirst
  | cons w0 ws =>
    rw [hfil] at hfirst
    simp at hfirst
    have hw0 : w0 ∈ l.filter (fun r => r.week_start = k) := by
      rw [hfil]
      exact List.mem_cons_self w0 ws
    have h2 := (List.mem_filter.mp hw0).2
    simp only [decide_eq_true_eq] at h2
    rw [← h2]
    exact hfirst.symm

/-- Every row of the sorted weekly output sits in the grouping map under its
own `weekStart`. -/
theorem weekly_row_mem (campaigns : List CampaignWeek) {t : WeekTotals}
    (hmem : t ∈ aggregatedWeeklyData campaigns) :
    (t.weekStart, t) ∈
      foldRecs (fun w : WeeklyData => w.week_start) weekAdd weekZero (weekFlat campaigns) [] := by
  have hval : t ∈ (weeklyMap campaigns).map Prod.snd :=
    (List.perm_insertionSort weekLE ((weeklyMap campaigns).map Prod.snd)).mem_iff.mp hmem
  obtain ⟨⟨k, v⟩, hkv, hsnd⟩ := List.mem_map.mp hval
  have hv : v = t := hsnd
  subst hv
  rw [weeklyMap_eq] at hkv
  have hk := weekStart_of_mem hkv
  rw [hk]
  exact hkv

/-- Witness input for the device aggregation: one campaign, one record. -/
def devWitnessCampaigns : List CampaignDev :=
  [⟨"Camp A", some [⟨"Mobile", 1, 2, 3, 4, 5, 0, 0, 6⟩], 4, 5⟩]

/-- Witness for C1 at a concrete input: the single `Mobile` row aggregates to
the record's own values, and its spend equals the filtered sum. -/
theorem aggregation_sum_correct_witness :
    (("Mobile", (⟨1, 2, 3, 4, 5, 6⟩ : DevTotals)) ∈ aggregatedDeviceData devWitnessCampaigns) ∧
    (⟨1, 2, 3, 4, 5, 6⟩ : DevTotals).spend =
      ((deviceRecords devWitnessCampaigns "Mobile").map fun d => d.spend).sum := by
  have hmem :
      ("Mobile", (⟨1, 2, 3, 4, 5, 6⟩ : DevTotals)) ∈ aggregatedDeviceData devWitnessCampaigns := by
    norm_num [devWitnessCampaigns, aggregatedDeviceData, upsert, devAdd, devZero,
      List.foldl_cons, List.foldl_nil]
  exact ⟨hmem, (aggregation_sum_correct.1 devWitnessCampaigns "Mobile" _ hmem).2.2.2.1⟩

/-- C8: First write wins for descriptive passthrough fields.  A regional
row's `country` and a weekly row's `weekEnd` equal the corresponding field of
the first record encountered for that key; later records with the same key
never overwrite them. -/
theorem first_write_wins :
    (∀ (campaigns : List CampaignReg) (k : String) (t : RegTotals),
        (k, t) ∈ aggregatedRegionalData campaigns →
          ((regionRecords campaigns k).head?).map (fun r => r.country) = some t.country) ∧
    (∀ (campaigns : List CampaignWeek) (t : WeekTotals),
        t ∈ aggregatedWeeklyData campaigns →
          ((weekRecords campaigns t.weekStart).head?).map (fun w => w.week_end) = some t.weekEnd) := by
  constructor
  · intro campaigns k t hmem
    rw [aggregatedRegionalData_eq] at hmem
    exact proj_first_of_mem (fun r : RegionalData => r.region) regAdd regZero
      (fun t : RegTotals => t.country) (fun r : RegionalData => r.country)
      (fun _ _ => rfl) (fun _ => rfl) hmem
  · intro campaigns t hmem
    have hkv := weekly_row_mem campaigns hmem
    exact proj_first_of_mem (fun w : WeeklyData => w.week_start) weekAdd weekZero
      (fun t : WeekTotals => t.weekEnd) (fun w : WeeklyData => w.week_end)
      (fun _ _ => rfl) (fun _ => rfl) hkv

/-- Witness input for C8: two records for the same region that disagree on
`country`. -/
def regWitnessCampaigns : List CampaignReg :=
  [⟨"c1", "Camp A", some
    [⟨"Dubai", "UAE", 1, 1, 1, 2, 3, 0, 0, 0, 0, 0⟩,
     ⟨"Dubai", "Oops", 1, 1, 1, 2, 3, 0, 0, 0, 0, 0⟩]⟩]

/-- Witness for C8: with two same-key records disagreeing on `country`, the
aggregated row keeps the first record's `"UAE"`. -/
theorem first_write_wins_witness :
    (("Dubai", (⟨4, 6, 2, 2, 2, "UAE"⟩ : RegTotals)) ∈
        aggregatedRegionalData regWitnessCampaigns) ∧
    ((regionRecords regWitnessCampaigns "Dubai").head?).map (fun r => r.country) = some "UAE" := by
  have hmem :
      ("Dubai", (⟨4, 6, 2, 2, 2, "UAE"⟩ : RegTotals)) ∈
        aggregatedRegionalData regWitnessCampaigns := by
    norm_num [regWitnessCampaigns, aggregatedRegionalData, upsert, regAdd, regZero,
      List.foldl_cons, List.foldl_nil]
  exact ⟨hmem, first_write_wins.1 regWitnessCampaigns "Dubai" _ hmem⟩

/-- All demographic records of all campaigns, in traversal order. -/
def demoFlat (campaigns : List CampaignDemo) : List DemographicData :=
  campaigns.flatMap fun c => c.demographic_breakdown.getD []

theorem demoPairsFlat_age (campaigns : List CampaignDemo) :
    (demoPairsFlat campaigns).map (fun p => p.2.age_group) =
      (demoFlat campaigns).map (fun d => d.age_group) := by
  induction campaigns with
  | nil => rfl
  | cons c cs ih =>
    simp only [demoPairsFlat, demoFlat, List.flatMap_cons, List.map_append, List.map_map,
      Function.comp_def] at ih ⊢
    rw [ih]

/-- C2 (amended): Aggregation completeness.  For the device, region and week
dimensions the output group-key set is exactly the set of dimension values
present across all campaigns' breakdown lists.  For the demographic
dimension the output is not keyed by `(age_group, gender)` pairs: the only
data-dependent key set is the age-group map, whose keys are exactly the
age-group values present, while gender is folded into the two fixed buckets
`maleData` and `femaleData`. -/
theorem aggregation_keys_amended :
    (∀ (campaigns : List CampaignDev) (k : String),
        k ∈ keysA (aggregatedDeviceData campaigns) ↔
          k ∈ (deviceFlat campaigns).map fun d => d.device) ∧
    (∀ (campaigns : List CampaignReg) (k : String),
        k ∈ keysA (aggregatedRegionalData campaigns) ↔
          k ∈ (regionFlat campaigns).map fun r => r.region) ∧
    (∀ (campaigns : List CampaignWeek) (k : String),
        k ∈ (aggregatedWeeklyData campaigns).map (fun t => t.weekStart) ↔
          k ∈ (weekFlat campaigns).map fun w => w.week_start) ∧
    (∀ (campaigns : List CampaignDemo) (m : Metrics) (k : String),
        calculateMetrics campaigns = .ok m →
          (k ∈ keysA m.ageGroupData ↔
            k ∈ (demoFlat campaigns).map fun d => d.age_group)) := by
  refine ⟨?_, ?_, ?_, ?_⟩
  · intro campaigns k
    rw [aggregatedDeviceData_eq, mem_keysA_foldRecs]
    simp [keysA]
  · intro campaigns k
    rw [aggregatedRegionalData_eq, mem_keysA_foldRecs]
    simp [keysA]
  · intro campaigns k
    constructor
    · intro h
      obtain ⟨t, ht, hk⟩ := List.mem_map.mp h
      have hrow := weekly_row_mem campaigns ht
      have hkey : k ∈ keysA (foldRecs (fun w : WeeklyData => w.week_start) weekAdd weekZero
          (weekFlat campaigns) []) := by
        rw [← hk]
        exact List.mem_map.mpr ⟨(t.weekStart, t), hrow, rfl⟩
      have := (mem_keysA_foldRecs _ _ _ (weekFlat campaigns) [] k).mp hkey
      simpa [keysA] using this
    · intro h
      have hkey : k ∈ keysA (foldRecs (fun w : WeeklyData => w.week_start) weekAdd weekZero
          (weekFlat campaigns) []) :=
        (mem_keysA_foldRecs _ _ _ (weekFlat campaigns) [] k).mpr (Or.inr h)
      obtain ⟨v, hv⟩ := Option.isSome_iff_exists.mp
        ((lookupA_isSome_iff_mem k _).mpr hkey)
      have hmem := mem_of_lookupA_eq_some k v _ hv
      have hks := weekStart_of_mem hmem
      have hvv : v ∈ (weeklyMap campaigns).map Prod.snd := by
        rw [weeklyMap_eq]
        exact List.mem_map.mpr ⟨(k, v), hmem, rfl⟩
      have hsorted : v ∈ aggregatedWeeklyData campaigns :=
        (List.perm_insertionSort weekLE ((weeklyMap campaigns).map Prod.snd)).mem_iff.mpr hvv
      exact List.mem_map.mpr ⟨v, hsorted, hks⟩
  · intro campaigns m k hok
    rw [calculateMetrics_eq] at hok
    by_cases hall : campaigns.all (fun c => c.demographic_breakdown.isSome)
    · rw [if_pos hall] at hok
      have hm : pureMetrics campaigns = m := by
        simpa using hok
      subst hm
      rw [pureMetrics_age, mem_keysA_foldRecs, ← demoPairsFlat_age]
      simp [keysA]
    · rw [if_neg hall] at hok
      cases hok

/-- Input refuting the pair-keying claim: one campaign with two records that
share an age group but differ in gender. -/
def demoPairCampaigns : List CampaignDemo :=
  [⟨1, "Camp A", some
    [⟨"18-24", "Male", 50, ⟨10, 3, 1, 0, 0⟩⟩,
     ⟨"18-24", "Female", 50, ⟨10, 4, 1, 0, 0⟩⟩], 100, 200⟩]

/-- C2 counterexample: the input carries two distinct `(age_group, gender)`
pairs, but the demographic aggregation's output holds a single age-keyed
bucket `"18-24"` (and two fixed gender buckets), so its group keys are not
the `(age_group, gender)` pairs present in the data. -/
theorem demographic_pair_keys_counterexample :
    (demoPairs demoPairCampaigns).dedup = [("18-24", "Male"), ("18-24", "Female")] ∧
    calculateMetrics demoPairCampaigns =
      .ok ⟨⟨3, 50, 100⟩, ⟨4, 50, 100⟩, [("18-24", ⟨100, 200⟩)]⟩ ∧
    keysA (⟨⟨3, 50, 100⟩, ⟨4, 50, 100⟩, [("18-24", ⟨100, 200⟩)]⟩ : Metrics).ageGroupData =
      ["18-24"] := by
  refine ⟨by decide, ?_, by decide⟩
  rw [calculateMetrics_eq]
  norm_num [demoPairCampaigns, pureMetrics, demoStep, upsert, initMetrics,
    List.foldl_cons, List.foldl_nil]
  exact ⟨by decide, by decide⟩

/-- Witness for C2 (the age-group conjunct has a hypothesis): at a concrete
input whose aggregation succeeds, the key `"18-24"` is in the output's
age-group key set. -/
theorem aggregation_keys_amended_witness :
    "18-24" ∈ keysA (pureMetrics demoPairCampaigns).ageGroupData := by
  have hok : calculateMetrics demoPairCampaigns = .ok (pureMetrics demoPairCampaigns) := by
    rw [calculateMetrics_eq]
    norm_num [demoPairCampaigns]
  exact (aggregation_keys_amended.2.2.2 demoPairCampaigns (pureMetrics demoPairCampaigns)
    "18-24" hok).mpr (by norm_num [demoFlat, demoPairCampaigns])

/-- C3: Demographic ratio split.  When `calculateMetrics` succeeds, each
gender bucket's spend (revenue) is the sum, per campaign and per record of
that gender, of `campaign.spend * (percentage_of_audience / 100)`
(respectively revenue), and each age bucket sums the same per-record
contributions over the records with that age group — the split is applied
per record, per campaign, before accumulation. -/
theorem demographic_ratio_split (campaigns : List CampaignDemo) (m : Metrics)
    (hok : calculateMetrics campaigns = .ok m) :
    m.maleData.spend = (campaigns.map fun c =>
        (((c.demographic_breakdown.getD []).filter fun d => d.gender = "Male").map
          fun d => c.spend * (d.percentage_of_audience / 100)).sum).sum ∧
    m.maleData.revenue = (campaigns.map fun c =>
        (((c.demographic_breakdown.getD []).filter fun d => d.gender = "Male").map
          fun d => c.revenue * (d.percentage_of_audience / 100)).sum).sum ∧
    m.femaleData.spend = (campaigns.map fun c =>
        (((c.demographic_breakdown.getD []).filter fun d => d.gender = "Female").map
          fun d => c.spend * (d.percentage_of_audience / 100)).sum).sum ∧
    m.femaleData.revenue = (campaigns.map fun c =>
        (((c.demographic_breakdown.getD []).filter fun d => d.gender = "Female").map
          fun d => c.revenue * (d.percentage_of_audience / 100)).sum).sum ∧
    (∀ (k : String) (t : AgeTotals), (k, t) ∈ m.ageGroupData →
        t.spend = (((demoPairsFlat campaigns).filter fun p => p.2.age_group = k).map
          fun p => p.1.spend * (p.2.percentage_of_audience / 100)).sum ∧
        t.revenue = (((demoPairsFlat campaigns).filter fun p => p.2.age_group = k).map
          fun p => p.1.revenue * (p.2.percentage_of_audience / 100)).sum) := by
  rw [calculateMetrics_eq] at hok
  by_cases hall : campaigns.all (fun c => c.demographic_breakdown.isSome)
  · rw [if_pos hall] at hok
    have hm : pureMetrics campaigns = m := by
      simpa using hok
    subst hm
    refine ⟨?_, ?_, ?_, ?_, ?_⟩
    · rw [pureMetrics_male]
    · rw [pureMetrics_male]
    · rw [pureMetrics_female]
    · rw [pureMetrics_female]
    · intro k t hmem
      rw [pureMetrics_age] at hmem
      exact ⟨proj_eq_sum_of_mem _ _ _ (fun t : AgeTotals => t.spend)
          (fun p => p.1.spend * (p.2.percentage_of_audience / 100))
          (fun _ _ => rfl) (fun _ => rfl) hmem,
        proj_eq_sum_of_mem _ _ _ (fun t : AgeTotals => t.revenue)
          (fun p => p.1.revenue * (p.2.percentage_of_audience / 100))
          (fun _ _ => rfl) (fun _ => rfl) hmem⟩
  · rw [if_neg hall] at hok
    cases hok

/-- Witness input for C3: spend 1000, revenue 2000, one male record with
`percentage_of_audience = 25`. -/
def demoRatioCampaigns : List CampaignDemo :=
  [⟨1, "Camp A", some [⟨"18-24", "Male", 25, ⟨10, 3, 1, 0, 0⟩⟩], 1000, 2000⟩]

/-- Witness for C3 at the spec's own example: the bucket receives spend 250
and revenue 500. -/
theorem demographic_ratio_split_witness :
    calculateMetrics demoRatioCampaigns = .ok (pureMetrics demoRatioCampaigns) ∧
    (pureMetrics demoRatioCampaigns).maleData.spend = 250 ∧
    (pureMetrics demoRatioCampaigns).maleData.revenue = 500 := by
  have hok : calculateMetrics demoRatioCampaigns = .ok (pureMetrics demoRatioCampaigns) := by
    rw [calculateMetrics_eq]
    norm_num [demoRatioCampaigns]
  have h := demographic_ratio_split demoRatioCampaigns (pureMetrics demoRatioCampaigns) hok
  refine ⟨hok, ?_, ?_⟩
  · rw [h.1]
    norm_num [demoRatioCampaigns]
  · rw [h.2.1]
    norm_num [demoRatioCampaigns]

/-- C4: the missing-breakdown behaviour.  The device, regional and weekly
aggregations silently skip a campaign whose breakdown list is absent and
return an empty row set for an empty campaign list, but `calculateMetrics`
has no such guard: a campaign with an absent `demographic_breakdown` makes
`undefined.forEach` throw (modelled as `Except.error`), contradicting the
claim that aggregation never throws. -/
theorem calculateMetrics_throws_on_missing_breakdown :
    aggregatedDeviceData [⟨"Camp A", none, 100, 200⟩] = [] ∧
    aggregatedRegionalData [⟨"c1", "Camp A", none⟩] = [] ∧
    aggregatedWeeklyData [⟨"c1", "Camp A", none⟩] = [] ∧
    aggregatedDeviceData [] = [] ∧
    calculateMetrics [] = .ok initMetrics ∧
    calculateMetrics [⟨1, "Camp A", none, 100, 200⟩] = .error () := by
  exact ⟨rfl, rfl, rfl, rfl, rfl, rfl⟩

/-- Input for the zero-spend ratio counterexample: one regional record with
spend 0 and revenue 500. -/
def ratioCounterCampaigns : List CampaignReg :=
  [⟨"c1", "Camp A", some [⟨"Dubai", "UAE", 10, 1, 1, 0, 500, 0, 0, 0, 0, 0⟩]⟩]

/-- C5 counterexample: at a row with spend 0 and revenue 500, the regional
table's `(revenue / spend) || 0` evaluates to `Infinity` (only `NaN` is
falsy, `Infinity` is not), and the unguarded per-campaign device-table ratio
evaluates to `Infinity` as well — neither resolves to `0` as the claim
states. -/
theorem derived_ratio_counterexample :
    (aggregatedRegionalData ratioCounterCampaigns).map (fun r => regionTableRoas r.2) =
      [JSVal.posInf] ∧
    mobileCampaignRoas ⟨"Camp A", some [⟨"Mobile", 10, 1, 1, 0, 500, 0, 0, 1⟩], 0, 500⟩ =
      some JSVal.posInf ∧
    avgROAS 500 0 = JSVal.posInf ∧
    JSVal.posInf ≠ JSVal.finite 0 := by
  refine ⟨?_, ?_, ?_, by simp⟩
  · norm_num [ratioCounterCampaigns, aggregatedRegionalData, upsert, regAdd, regZero,
      regionTableRoas, orZero, jsDiv, List.foldl_cons, List.foldl_nil]
  · norm_num [mobileCampaignRoas, jsDiv, List.find?]
  · norm_num [avgROAS, orZero, jsDiv]

/-- C5 (amended): the zero-guards are inconsistent across call sites.  The
explicitly guarded per-device ROAS (`spend > 0 ? revenue / spend : 0`)
resolves to `0` on zero spend; the `|| 0`-guarded ratios (regional table,
average ROAS) resolve to `0` only when the division yields `NaN` (revenue and
spend both zero) and yield `Infinity` when spend is zero and revenue
positive; the unguarded per-campaign device-table ratio yields `Infinity`
(or `NaN` when revenue is also zero) on zero spend. -/
theorem derived_ratio_guards_amended :
    (∀ t : DevTotals, t.spend = 0 → mobileROAS t = 0) ∧
    (∀ t : RegTotals, t.spend = 0 → t.revenue = 0 → regionTableRoas t = JSVal.finite 0) ∧
    (∀ t : RegTotals, t.spend = 0 → 0 < t.revenue → regionTableRoas t = JSVal.posInf) ∧
    (∀ d : DeviceData, d.spend = 0 → 0 < d.revenue → jsDiv d.revenue d.spend = JSVal.posInf) ∧
    (∀ d : DeviceData, d.spend = 0 → d.revenue = 0 → jsDiv d.revenue d.spend = JSVal.nan) ∧
    (∀ totalRevenue totalSpend : ℚ, totalSpend = 0 → 0 < totalRevenue →
        avgROAS totalRevenue totalSpend = JSVal.posInf) := by
  refine ⟨?_, ?_, ?_, ?_, ?_, ?_⟩
  · intro t ht
    simp [mobileROAS, ht]
  · intro t ht hr
    simp [regionTableRoas, orZero, jsDiv, ht, hr]
  · intro t ht hr
    simp [regionTableRoas, orZero, jsDiv, ht, hr, not_lt_of_gt hr]
  · intro d hs hr
    simp [jsDiv, hs, hr]
  · intro d hs hr
    simp [jsDiv, hs, hr]
  · intro r s hs hr
    simp [avgROAS, orZero, jsDiv, hs, hr]

/-- Witness for C5 (amended): concrete rows with spend 0 — the guarded ratio
gives 0, the `|| 0` and unguarded ones give `Infinity`. -/
theorem derived_ratio_guards_amended_witness :
    mobileROAS ⟨10, 1, 1, 0, 500, 1⟩ = 0 ∧
    regionTableRoas ⟨0, 500, 10, 1, 1, "UAE"⟩ = JSVal.posInf ∧
    jsDiv (500 : ℚ) 0 = JSVal.posInf := by
  refine ⟨derived_ratio_guards_amended.1 ⟨10, 1, 1, 0, 500, 1⟩ rfl, ?_, ?_⟩
  · exact derived_ratio_guards_amended.2.2.1 ⟨0, 500, 10, 1, 1, "UAE"⟩ rfl (by norm_num)
  · exact derived_ratio_guards_amended.2.2.2.1 ⟨"d", 10, 1, 1, 0, 500, 0, 0, 1⟩ rfl (by norm_num)

/-- C6: Single-point line geometry.  There is no special case for a
one-point series: the horizontal position is `(0 / (1 - 1)) * 100`, which is
`NaN`, and the path command list contains that `NaN` — the claim's `x = 0`
does not hold.  With two points the positions are finite, so the `NaN` comes
precisely from the `length - 1` division. -/
theorem line_chart_single_point_nan :
    (linePoints [⟨"A", 5⟩] 300).map (fun p => p.x) = [JSVal.nan] ∧
    linePathCmds (linePoints [⟨"A", 5⟩] 300) = [("M", JSVal.nan, 220)] ∧
    pathHasNaN (linePathCmds (linePoints [⟨"A", 5⟩] 300)) ∧
    (linePoints [⟨"A", 5⟩, ⟨"B", 5⟩] 300).map (fun p => p.x) =
      [JSVal.finite 0, JSVal.finite 100] := by
  refine ⟨?_, ?_, ?_, ?_⟩ <;>
    norm_num [linePoints, linePathCmds, pathHasNaN, listMax, listMin, orOne, jsDiv, jsMulC,
      List.enum, List.enumFrom]

theorem bubbleMapDataRevenue_cities (campaigns : List CampaignReg) :
    (bubbleMapDataRevenue campaigns).map (fun e => e.city) = cityCoordinates.map Prod.fst := by
  rw [bubbleMapDataRevenue, List.map_map]
  rfl

theorem bubbleMapDataSpend_cities (campaigns : List CampaignReg) :
    (bubbleMapDataSpend campaigns).map (fun e => e.city) = cityCoordinates.map Prod.fst := by
  rw [bubbleMapDataSpend, List.map_map]
  rfl

/-- C7 (amended): Reference-table plotting.  The plotted point set is
exactly the fixed reference city table — each reference city exactly once
(the key list is duplicate-free); a plotted point's value follows the
`regionData?.revenue || 1000` rule, i.e. the matching aggregated row's
revenue when such a row exists and its revenue is non-zero, and the sentinel
`1000` both when no row matches and when the matching row's revenue is `0`;
an aggregated row whose region is not a reference city is omitted from the
plotted set. -/
theorem bubble_reference_union_amended :
    (∀ campaigns : List CampaignReg,
        (bubbleMapDataRevenue campaigns).map (fun e => e.city) = cityCoordinates.map Prod.fst) ∧
    (∀ campaigns : List CampaignReg,
        (bubbleMapDataSpend campaigns).map (fun e => e.city) = cityCoordinates.map Prod.fst) ∧
    (cityCoordinates.map Prod.fst).Nodup ∧
    (∀ (campaigns : List CampaignReg) (e : BubbleDataPoint),
        e ∈ bubbleMapDataRevenue campaigns →
          e.value =
            match lookupA e.city (aggregatedRegionalData campaigns) with
            | some r => if r.revenue = 0 then 1000 else r.revenue
            | none => 1000) ∧
    (∀ (campaigns : List CampaignReg) (k : String),
        k ∉ cityCoordinates.map Prod.fst →
          k ∉ (bubbleMapDataRevenue campaigns).map (fun e => e.city)) := by
  refine ⟨bubbleMapDataRevenue_cities, bubbleMapDataSpend_cities, by decide, ?_, ?_⟩
  · intro campaigns e he
    obtain ⟨p, hp, hpe⟩ := List.mem_map.mp he
    subst hpe
    rfl
  · intro campaigns k hk hmem
    rw [bubbleMapDataRevenue_cities] at hmem
    exact hk hmem

/-- Input for the C7 counterexample: an aggregated region (`"Atlantis"`)
that is not a reference city, and a reference city (`"Dubai"`) whose
aggregated revenue is `0`. -/
def bubbleCounterCampaigns : List CampaignReg :=
  [⟨"c1", "Camp A", some
    [⟨"Atlantis", "Nowhere", 0, 0, 0, 3, 5, 0, 0, 0, 0, 0⟩,
     ⟨"Dubai", "UAE", 0, 0, 0, 7, 0, 0, 0, 0, 0, 0⟩]⟩]

/-- C7 counterexample: the aggregated row `"Atlantis"` is omitted from the
plotted set (the map iterates over the reference table only), and the
reference city `"Dubai"`, whose matching aggregated row has revenue `0`, is
plotted with the sentinel value `1000` instead of that row's revenue — both
against the claim. -/
theorem bubble_union_counterexample :
    "Atlantis" ∈ keysA (aggregatedRegionalData bubbleCounterCampaigns) ∧
    "Atlantis" ∉ (bubbleMapDataRevenue bubbleCounterCampaigns).map (fun e => e.city) ∧
    lookupA "Dubai" (aggregatedRegionalData bubbleCounterCampaigns) =
      some ⟨7, 0, 0, 0, 0, "UAE"⟩ ∧
    (bubbleMapDataRevenue bubbleCounterCampaigns).head? =
      some ⟨"Dubai", "UAE", 1000, 7, 55.2708, 25.2048⟩ := by
  have hagg : aggregatedRegionalData bubbleCounterCampaigns =
      [("Atlantis", ⟨3, 5, 0, 0, 0, "Nowhere"⟩), ("Dubai", ⟨7, 0, 0, 0, 0, "UAE"⟩)] := by
    norm_num [bubbleCounterCampaigns, aggregatedRegionalData, upsert, regAdd, regZero,
      List.foldl_cons, List.foldl_nil]
    decide
  refine ⟨?_, ?_, ?_, ?_⟩
  · rw [hagg]
    decide
  · rw [bubbleMapDataRevenue_cities]
    decide
  · rw [hagg]
    norm_num [lookupA]
    decide
  · rw [bubbleMapDataRevenue, cityCoordinates]
    simp only [List.map_cons, List.head?_cons, hagg, Option.some.injEq]
    norm_num [lookupA]
    decide

/-- C9: Bubble radius bounds.  For every non-empty point set (non-emptiness
is witnessed by the point's membership), every computed radius lies in
`[10, 60]`; when the values are not all equal, a point holding the minimum
value gets radius 10 and one holding the maximum gets radius 60; when the
maximum equals the minimum (all values equal), every radius is 35. -/
theorem bubble_radius_bounds (data : List BubbleDataPoint) (p : BubbleDataPoint)
    (hp : p ∈ data) :
    (10 ≤ getBubbleSize data p.value ∧ getBubbleSize data p.value ≤ 60) ∧
    (listMax (data.map fun item => item.value) = listMin (data.map fun item => item.value) →
      getBubbleSize data p.value = 35) ∧
    (listMax (data.map fun item => item.value) ≠ listMin (data.map fun item => item.value) →
      (p.value = listMin (data.map fun item => item.value) →
        getBubbleSize data p.value = 10) ∧
      (p.value = listMax (data.map fun item => item.value) →
        getBubbleSize data p.value = 60)) := by
  have hvmem : p.value ∈ data.map (fun item => item.value) := List.mem_map.mpr ⟨p, hp, rfl⟩
  have hminle : listMin (data.map fun item => item.value) ≤ p.value := listMin_le hvmem
  have hlemax : p.value ≤ listMax (data.map fun item => item.value) := le_listMax hvmem
  by_cases heq : listMax (data.map fun item => item.value) =
      listMin (data.map fun item => item.value)
  · rw [getBubbleSize, if_pos heq]
    exact ⟨⟨by norm_num, by norm_num⟩, fun _ => rfl, fun hne => absurd heq hne⟩
  · rw [getBubbleSize, if_neg heq]
    have hlt : listMin (data.map fun item => item.value) <
        listMax (data.map fun item => item.value) :=
      lt_of_le_of_ne (le_trans hminle hlemax) (Ne.symm heq)
    have hpos : 0 < listMax (data.map fun item => item.value) -
        listMin (data.map fun item => item.value) := sub_pos.mpr hlt
    have hn0 : 0 ≤ (p.value - listMin (data.map fun item => item.value)) /
        (listMax (data.map fun item => item.value) -
          listMin (data.map fun item => item.value)) :=
      div_nonneg (sub_nonneg.mpr hminle) hpos.le
    have hn1 : (p.value - listMin (data.map fun item => item.value)) /
        (listMax (data.map fun item => item.value) -
          listMin (data.map fun item => item.value)) ≤ 1 :=
      (div_le_one hpos).mpr (sub_le_sub_right hlemax _)
    refine ⟨⟨by nlinarith, by nlinarith⟩, fun h => absurd h heq, fun _ => ⟨?_, ?_⟩⟩
    · intro hv
      rw [hv, sub_self, zero_div, zero_mul, add_zero]
    · intro hv
      rw [hv, div_self (ne_of_gt hpos)]
      norm_num

/-- Witness input for C9: two points with distinct values. -/
def bubbleWitnessData : List BubbleDataPoint :=
  [⟨"A", "X", 1, 0, 0, 0⟩, ⟨"B", "X", 3, 0, 0, 0⟩]

/-- Witness for C9: at a concrete two-point set, the minimum-value point has
radius 10 and the maximum-value point has radius 60. -/
theorem bubble_radius_bounds_witness :
    getBubbleSize bubbleWitnessData 1 = 10 ∧ getBubbleSize bubbleWitnessData 3 = 60 := by
  have hminmax : listMax (bubbleWitnessData.map fun item => item.value) = 3 ∧
      listMin (bubbleWitnessData.map fun item => item.value) = 1 := by
    norm_num [bubbleWitnessData, listMax, listMin]
  constructor
  · exact ((bubble_radius_bounds bubbleWitnessData ⟨"A", "X", 1, 0, 0, 0⟩
      (by norm_num [bubbleWitnessData])).2.2
      (by rw [hminmax.1, hminmax.2]; norm_num)).1 (by rw [hminmax.2])
  · exact ((bubble_radius_bounds bubbleWitnessData ⟨"B", "X", 3, 0, 0, 0⟩
      (by norm_num [bubbleWitnessData])).2.2
      (by rw [hminmax.1, hminmax.2]; norm_num)).2 (by rw [hminmax.1])

/-- C10 (amended): the bubble map sorts its input in place.  After a call,
the caller's array holds the same elements (a permutation — no element is
modified, added or dropped) but in descending order by `value`, not in its
original order. -/
theorem bubble_map_render_state (data : List BubbleDataPoint) :
    (bubbleMapDataAfterRender data).Perm data ∧
    List.Sorted bubbleValueGE (bubbleMapDataAfterRender data) := by
  rw [bubbleMapDataAfterRender]
  by_cases h : data.isEmpty
  · rw [if_pos h]
    have hnil : data = [] := by
      cases data
      · rfl
      · simp [List.isEmpty] at h
    subst hnil
    exact ⟨List.Perm.refl _, List.sorted_nil⟩
  · rw [if_neg h]
    exact ⟨List.perm_insertionSort bubbleValueGE data,
      List.sorted_insertionSort bubbleValueGE data⟩

/-- C10 counterexample: a two-point array in ascending order of `value` is
not equal to its state after the bubble map has rendered — the component's
in-place `data.sort((a, b) => b.value - a.value)` has reordered the caller's
array, so the call does not leave the input unchanged. -/
theorem bubble_map_mutation_counterexample :
    bubbleMapDataAfterRender
        [⟨"Cairo", "Egypt", 1, 0, 0, 0⟩, ⟨"Dubai", "UAE", 2, 0, 0, 0⟩] ≠
      [⟨"Cairo", "Egypt", 1, 0, 0, 0⟩, ⟨"Dubai", "UAE", 2, 0, 0, 0⟩] := by
  have hsorted : bubbleMapDataAfterRender
      [⟨"Cairo", "Egypt", 1, 0, 0, 0⟩, ⟨"Dubai", "UAE", 2, 0, 0, 0⟩] =
      [⟨"Dubai", "UAE", 2, 0, 0, 0⟩, ⟨"Cairo", "Egypt", 1, 0, 0, 0⟩] := by
    norm_num [bubbleMapDataAfterRender, List.insertionSort, List.orderedInsert,
      bubbleValueGE, List.isEmpty]
  rw [hsorted]
  simp

/-- Witness for C7 (amended) at a concrete input: `"Atlantis"` is not a
reference city, so it never appears among the plotted cities. -/
theorem bubble_reference_union_amended_witness :
    "Atlantis" ∉ (bubbleMapDataRevenue []).map (fun e => e.city) :=
  bubble_reference_union_amended.2.2.2.2 [] "Atlantis" (by decide)
